import Mathlib

/-!
Verification of the gotools repository: the blitz HTTP load-test pipeline
(src/blitz/jobs.go, src/blitz/main.go, the worker/aggregator mains in
src/unnamed/part_006 and part_007) and the worker-pool contract whose tests
live in src/unnamed/part_005.

Go integers are embedded as `Int` (Go `/` on integers truncates toward zero,
which is `Int.tdiv`; Go division by a zero divisor panics, which is embedded
as `Option`). `time.Duration` is an `Int` count of nanoseconds. Go `error`
values are `Option String` (`none` = nil).
-/

namespace Blitz

/-- Result of one HTTP request, from `type Result struct` in
src/unnamed/part_006: `Status int`, `Latency time.Duration`,
`Error error`, `Timestamp time.Time` (embedded as nanoseconds). -/
structure Result where
  Status : Int
  Latency : Int
  Error : Option String
  Timestamp : Int
deriving Repr, DecidableEq

/-- Outcome of the HTTP side effects inside `makeRequest`
(src/unnamed/part_006): whether `http.NewRequestWithContext` failed, whether
`client.Do` failed, the response status code, the elapsed time
`time.Since(start)`, and the `time.Now()` reading taken when the Result is
built. -/
structure HttpOutcome where
  newRequestErr : Option String
  doErr : Option String
  statusCode : Int
  elapsed : Int
  now : Int

/-- Shallow embedding of `makeRequest` (src/unnamed/part_006, lines 26-50):
both error paths build a Result carrying only `Error` and `Timestamp`, so
`Status` and `Latency` stay at their Go zero values; the success path records
the status code and the measured latency. -/
def makeRequest (o : HttpOutcome) : Result :=
  match o.newRequestErr with
  | some e => { Status := 0, Latency := 0, Error := some e, Timestamp := o.now }
  | none =>
    match o.doErr with
    | some e => { Status := 0, Latency := 0, Error := some e, Timestamp := o.now }
    | none =>
      { Status := o.statusCode, Latency := o.elapsed, Error := none, Timestamp := o.now }

/-- Condition of the classification `if` in the aggregation loop
(src/blitz/main.go line 52, src/unnamed/part_006 line 112, part_007 line 66):
`r.Error != nil || r.Status < 200 || r.Status >= 300`. -/
def isFailed (r : Result) : Bool :=
  r.Error.isSome || decide (r.Status < 200) || decide (r.Status ≥ 300)

/-- Accumulator of the `for _, r := range results` loop: the `success` and
`failed` counters, `totalLatency`, and `latencyList` (the latter two only in
the part_006/part_007 mains; blitz/main.go keeps only the counters and the
total). -/
structure AggState where
  success : Nat
  failed : Nat
  totalLatency : Int
  latencyList : List Int
deriving Repr, DecidableEq

/-- One iteration of the aggregation loop body. -/
def aggStep (a : AggState) (r : Result) : AggState :=
  { success := if isFailed r then a.success else a.success + 1
    failed := if isFailed r then a.failed + 1 else a.failed
    totalLatency := a.totalLatency + r.Latency
    latencyList := a.latencyList ++ [r.Latency] }

/-- The aggregation loop over the collected results
(src/blitz/main.go lines 51-58, src/unnamed/part_006 lines 111-119,
part_007 lines 65-73). -/
def aggregate (results : List Result) : AggState :=
  results.foldl aggStep ⟨0, 0, 0, []⟩

/-- Shallow embedding of
`avgLatency := totalLatency / time.Duration(len(results))` in
src/blitz/main.go line 61. There is no guard: Go integer division panics on a
zero divisor, embedded as `none`. -/
def blitzAvgLatency (results : List Result) : Option Int :=
  if results.length = 0 then none
  else some (Int.tdiv (aggregate results).totalLatency results.length)

/-- Percentile index of the part_006/part_007 mains:
`pIdx := len * p / 100` followed by `if pIdx >= len { pIdx = len - 1 }`
(src/unnamed/part_007 lines 92-105, part_006 lines 133-146). -/
def percentileIdx (n p : Nat) : Nat :=
  let i := n * p / 100
  if n ≤ i then n - 1 else i

/-- Value reported for percentile `p` over the ascending-sorted latency list
`l` : the element `latencyList[pIdx]` (src/unnamed/part_007 lines 111-113).
The code indexes the slice directly; the index is below `l.length` whenever
`l` is non-empty, so the `getD` default is never consulted there. -/
def percentileValue (l : List Int) (p : Nat) : Int :=
  l.getD (percentileIdx l.length p) 0

/-- Index formula in the words of the spec: "compute index for percentile `p`
as `floor(n * p / 100)`, clamped to `n-1`". Stated from the spec to be
compared with `percentileIdx`, which is translated from the code. -/
def nearestRankIdx (n p : Nat) : Nat :=
  min (n * p / 100) (n - 1)

/-- Latency figures printed by the part_006/part_007 mains. -/
structure LatencyStats where
  minL : Int
  avg : Int
  p50 : Int
  p95 : Int
  p99 : Int
  maxL : Int

/-- The latency section of the part_006/part_007 mains
(src/unnamed/part_006 lines 129-157, part_007 lines 88-118): under the guard
`len(latencyList) > 0` the list is sorted ascending and min, average, P50,
P95, P99 and max are computed; otherwise the statistics are absent (the code
prints a no-data message instead). -/
def latencyStats (results : List Result) : Option LatencyStats :=
  let a := aggregate results
  if 0 < a.latencyList.length then
    let sorted := a.latencyList.mergeSort (· ≤ ·)
    some { minL := sorted.getD 0 0
           avg := Int.tdiv a.totalLatency a.latencyList.length
           p50 := percentileValue sorted 50
           p95 := percentileValue sorted 95
           p99 := percentileValue sorted 99
           maxL := sorted.getD (sorted.length - 1) 0 }
  else none

/-- Ticker creation of `jobGenerator` (src/blitz/jobs.go lines 8-11): for
`rate > 0` the code calls `time.NewTicker(time.Second / time.Duration(rate))`,
and `time.NewTicker` panics when its interval is not positive — which happens
exactly when the integer division truncates to zero, i.e. for rate > 10^9.
The panic is the outer `none`; otherwise the inner value is the created
ticker's period in nanoseconds (`some`), or `none` when `rate ≤ 0` and no
ticker is created at all. -/
def newTicker (rate : Int) : Option (Option Int) :=
  if 0 < rate then
    if Int.tdiv 1000000000 rate ≤ 0 then none
    else some (some (Int.tdiv 1000000000 rate))
  else some none

/-- The emission loop `for i := 0; i < count; i++` of `jobGenerator`
(src/blitz/jobs.go lines 18-23). Each list entry is one event sent on
`jobsChan`; the Boolean records whether the send was gated by a ticker wait
(`if ticker != nil { <-ticker.C }`). -/
def genLoop (count : Int) (paced : Bool) (i : Int) : List Bool :=
  if i < count then paced :: genLoop count paced (i + 1) else []
termination_by (count - i).toNat
decreasing_by omega

/-- Observable behaviour of the generator goroutine: the events sent on the
output channel, whether the channel was closed afterwards, and the ticker
period (if any). -/
structure GenOutput where
  events : List Bool
  closed : Bool
  ticker : Option Int

/-- Shallow embedding of `jobGenerator` (src/blitz/jobs.go lines 5-28): first
create the ticker — when `time.NewTicker` panics (`none`) this happens before
the emitting goroutine starts, so nothing is emitted and the channel is never
closed — then run the emission loop from `i = 0` and `close(jobsChan)`. The
`closed` flag is the only termination signal the structure carries, mirroring
the single output channel of the code. -/
def jobGenerator (count rate : Int) : Option GenOutput :=
  (newTicker rate).map fun t =>
    { events := genLoop count t.isSome 0
      closed := true
      ticker := t }

end Blitz

namespace Pool

/-- Modelled from the spec: the pool implementation `gokit/pool` (its `Job`
type) is not under src/, only its tests (src/unnamed/part_005) are. A Job is
"a unit of work submitted to the pool": a caller-assigned integer `ID`, an
opaque byte payload `Content`, and a per-job operation
`Func : (bytes) -> (bytes, error)`. -/
structure Job where
  ID : Int
  Content : List Nat
  Func : List Nat → Except String (List Nat)

/-- Modelled from the spec: the pool's `Result` type, absent from src/. The
outcome of executing one Job: `JobID` mirrors the originating Job's ID,
`Content` holds the output bytes on success (unspecified on failure, embedded
as `[]`), and `Error` is non-nil iff `Func` returned an error. -/
structure Result where
  JobID : Int
  Content : List Nat
  Error : Option String

/-- Modelled from the spec: how a worker "invokes `Func(Content)` and wraps
the outcome into a Result" (spec section 4.2); the worker code itself is not
under src/. -/
def execJob (j : Job) : Result :=
  match j.Func j.Content with
  | .ok out => { JobID := j.ID, Content := out, Error := none }
  | .error e => { JobID := j.ID, Content := [], Error := some e }

/-- Modelled from the spec: the observable state of a Pool, whose
implementation is not under src/. `queue` is the content of the buffered job
channel, `inFlight` the Jobs dequeued by workers whose `Func` has not yet
finished, `emitted` the Results sent on the results channel in order,
`submitted` the history of `Submit` calls, `jobsClosed` / `resultsClosed`
whether the two channels have been closed, `cancelled` whether the
cancellation context given to `Start` is done, and `closeCount` how many
times `close` has been executed on the results channel. -/
structure PoolState where
  queue : List Job
  inFlight : List Job
  emitted : List Result
  submitted : List Job
  jobsClosed : Bool
  resultsClosed : Bool
  cancelled : Bool
  closeCount : Nat

/-- Modelled from the spec: the state of a freshly constructed Pool
(`New(workerCount, queueCapacity)`, spec section 4.2) before any submission:
empty channels, nothing submitted, nothing closed, not cancelled. -/
def initState : PoolState :=
  { queue := [], inFlight := [], emitted := [], submitted := []
    jobsClosed := false, resultsClosed := false, cancelled := false
    closeCount := 0 }

/-- Modelled from the spec: one atomic transition of the pool, whose
implementation is not under src/ (spec sections 4.2 and 5).
`submit` enqueues a Job (legal until Shutdown closes the job channel);
`dequeue` is a worker pulling a Job, possible only while the cancellation
context is not done ("workers stop pulling new Jobs immediately");
`complete` is a worker finishing `Func` on a dequeued Job and sending the
wrapped Result — never interrupted by cancellation ("already-dequeued Jobs
still run to completion");
`cancel` is the cancellation context becoming done;
`closeJobs` is Shutdown closing the job channel;
`closeResults` is Shutdown closing the results channel, which happens only
after the job channel is closed and all workers have joined — with an empty
queue in a normal drain, or with Jobs abandoned in the queue after
cancellation. -/
inductive Step : PoolState → PoolState → Prop
  | submit (s : PoolState) (j : Job) (h : s.jobsClosed = false) :
      Step s { s with queue := s.queue ++ [j], submitted := s.submitted ++ [j] }
  | dequeue (s : PoolState) (j : Job) (rest : List Job)
      (hc : s.cancelled = false) (hq : s.queue = j :: rest) :
      Step s { s with queue := rest, inFlight := s.inFlight ++ [j] }
  | complete (s : PoolState) (pre post : List Job) (j : Job)
      (hf : s.inFlight = pre ++ j :: post) :
      Step s { s with inFlight := pre ++ post, emitted := s.emitted ++ [execJob j] }
  | cancel (s : PoolState) :
      Step s { s with cancelled := true }
  | closeJobs (s : PoolState) (h : s.jobsClosed = false) :
      Step s { s with jobsClosed := true }
  | closeResults (s : PoolState) (hj : s.jobsClosed = true) (hf : s.inFlight = [])
      (hq : s.queue = [] ∨ s.cancelled = true) (hr : s.resultsClosed = false) :
      Step s { s with resultsClosed := true, closeCount := s.closeCount + 1 }

/-- Reachability in zero or more pool transitions. -/
def Reaches (s s' : PoolState) : Prop :=
  Relation.ReflTransGen Step s s'

/-- States of one pool run: reachable from the freshly constructed pool. -/
def Reachable (s : PoolState) : Prop :=
  Reaches initState s

/-- Multiset of the `ID`s of a list of Jobs. -/
def jobIds (l : List Job) : Multiset Int :=
  (l.map Job.ID : List Int)

/-- Multiset of the `JobID`s of a list of Results. -/
def resultIds (l : List Result) : Multiset Int :=
  (l.map Result.JobID : List Int)

/-- Invariant of every reachable pool state: the submitted IDs are exactly
the emitted, in-flight and queued IDs (as a multiset), and a closed results
channel means the job channel is closed, the workers have joined, the queue
was drained unless cancelled, and `close` ran exactly once. -/
def Inv (s : PoolState) : Prop :=
  jobIds s.submitted = resultIds s.emitted + jobIds s.inFlight + jobIds s.queue
  ∧ (s.resultsClosed = true →
      s.jobsClosed = true ∧ s.inFlight = [] ∧ (s.queue = [] ∨ s.cancelled = true))
  ∧ (s.resultsClosed = true ↔ s.closeCount = 1)
  ∧ s.closeCount ≤ 1

/-- A job whose `Func` succeeds (the identity on its payload), used to
instantiate the pool theorems on a concrete run. -/
def okJob : Job :=
  { ID := 1, Content := [1], Func := fun b => Except.ok b }

/-- The final state of the concrete run submit `okJob`, dequeue, complete,
`Shutdown` (close jobs, drain, close results). -/
def drainedState : PoolState :=
  { queue := [], inFlight := [], emitted := [execJob okJob], submitted := [okJob]
    jobsClosed := true, resultsClosed := true, cancelled := false
    closeCount := 1 }

/-- A state in which the pool was cancelled with `okJob` still queued and a
second job in flight, used to instantiate the cancellation theorem. -/
def cancelledState : PoolState :=
  { queue := [okJob], inFlight := [{ ID := 2, Content := [], Func := fun b => Except.ok b }]
    emitted := [], submitted := [okJob, { ID := 2, Content := [], Func := fun b => Except.ok b }]
    jobsClosed := false, resultsClosed := false, cancelled := true
    closeCount := 0 }

end Pool

namespace Blitz

theorem genLoop_eq_replicate (count : Int) (paced : Bool) (i : Int) :
    genLoop count paced i = List.replicate (count - i).toNat paced := by
  rw [genLoop]
  split
  · next h =>
    rw [genLoop_eq_replicate count paced (i + 1)]
    have h1 : (count - i).toNat = (count - (i + 1)).toNat + 1 := by omega
    rw [h1, List.replicate_succ]
  · next h =>
    have h1 : (count - i).toNat = 0 := by omega
    rw [h1, List.replicate]
termination_by (count - i).toNat
decreasing_by omega

theorem length_filter_not_add (l : List Result) :
    (l.filter (fun r => !isFailed r)).length + (l.filter (fun r => isFailed r)).length
      = l.length := by
  induction l with
  | nil => rfl
  | cons r t iht => by_cases hr : isFailed r <;> simp [List.filter_cons, hr] <;> omega

theorem aggregate_foldl_spec (l : List Result) (a : AggState) :
    (l.foldl aggStep a).success = a.success + (l.filter (fun r => !isFailed r)).length ∧
    (l.foldl aggStep a).failed = a.failed + (l.filter (fun r => isFailed r)).length ∧
    (l.foldl aggStep a).totalLatency = a.totalLatency + (l.map Result.Latency).sum ∧
    (l.foldl aggStep a).latencyList = a.latencyList ++ l.map Result.Latency := by
  induction l generalizing a with
  | nil => simp
  | cons r t ih =>
    obtain ⟨h1, h2, h3, h4⟩ := ih (aggStep a r)
    simp only [List.foldl_cons]
    refine ⟨?_, ?_, ?_, ?_⟩
    · rw [h1]; by_cases hr : isFailed r <;> simp [aggStep, hr, List.filter_cons] <;> omega
    · rw [h2]; by_cases hr : isFailed r <;> simp [aggStep, hr, List.filter_cons] <;> omega
    · rw [h3]; simp [aggStep]; ring
    · rw [h4]; simp [aggStep]

theorem aggregate_latencyList_length (results : List Result) :
    (aggregate results).latencyList.length = results.length := by
  have h := (aggregate_foldl_spec results ⟨0, 0, 0, []⟩).2.2.2
  simp [aggregate] at h ⊢
  rw [h]
  simp

/-- C7: every Result is classified as a success exactly when its Error is nil
and its HTTP status lies in [200, 300); otherwise it is counted as a failure;
the reported success and failed counts are the numbers of Results in each
class over the collected Result sequence. -/
theorem result_classification (results : List Result) :
    (∀ r : Result, isFailed r = false ↔ (r.Error = none ∧ 200 ≤ r.Status ∧ r.Status < 300)) ∧
    (aggregate results).success = (results.filter (fun r => !isFailed r)).length ∧
    (aggregate results).failed = (results.filter (fun r => isFailed r)).length ∧
    (aggregate results).success + (aggregate results).failed = results.length := by
  obtain ⟨h1, h2, h3, _⟩ := aggregate_foldl_spec results ⟨0, 0, 0, []⟩
  refine ⟨?_, ?_, ?_, ?_⟩
  · intro r
    cases hr : r.Error <;> simp [isFailed, hr] <;> omega
  · simpa [aggregate] using h1
  · simpa [aggregate] using h2
  · have hp := length_filter_not_add results
    simp only [aggregate] at h1 h2 ⊢
    omega

/-- C8 counterexample: a run that collected exactly one Result, a failed one
(non-nil Error, status 500), has zero successful samples, yet the latency
statistics are computed rather than reported absent; and the separate
blitz/main.go average-latency computation has no guard at all, so on zero
collected Results its division by `len(results)` is a division by zero
(embedded as `none`). -/
theorem zero_success_stats_computed :
    (aggregate [⟨500, 7, some "connection refused", 0⟩]).success = 0 ∧
    (latencyStats [⟨500, 7, some "connection refused", 0⟩]).isSome = true ∧
    blitzAvgLatency [] = none :=
  ⟨rfl, rfl, rfl⟩

/-- C8 amended: the latency statistics of the part_006/part_007 mains are
reported as absent if and only if zero Results were collected; whenever at
least one Result was collected — even with zero successful samples — they are
computed over all collected latencies, the non-empty guard preventing
division by zero there; blitz/main.go's average latency is computed without
any guard and its division succeeds exactly when at least one Result was
collected, dividing by zero otherwise. -/
theorem latency_stats_guard (results : List Result) :
    ((latencyStats results).isSome = true ↔ results ≠ []) ∧
    ((blitzAvgLatency results).isSome = true ↔ results ≠ []) := by
  have hlen := aggregate_latencyList_length results
  constructor
  · simp only [latencyStats]
    rw [hlen]
    split
    · next hpos =>
      simp only [Option.isSome_some, true_iff]
      exact List.length_pos.mp hpos
    · next hneg =>
      simp only [Option.isSome_none]
      simp only [Bool.false_eq_true, false_iff, ne_eq, not_not]
      exact List.eq_nil_of_length_eq_zero (by omega)
  · rw [blitzAvgLatency]
    by_cases h : results = [] <;> simp [h]

/-- C10: the latency statistics are computed over the latencies of all
collected Results, including failed and errored ones: every Result's Latency
is appended to the latency list and added to the total used for the average,
and `makeRequest` leaves Latency at the zero duration on its error paths. -/
theorem latency_over_all_results (results : List Result) (o : HttpOutcome) :
    (aggregate results).latencyList = results.map Result.Latency ∧
    (aggregate results).totalLatency = (results.map Result.Latency).sum ∧
    ((makeRequest o).Error.isSome = true → (makeRequest o).Latency = 0) := by
  obtain ⟨_, _, h3, h4⟩ := aggregate_foldl_spec results ⟨0, 0, 0, []⟩
  refine ⟨?_, ?_, ?_⟩
  · simpa [aggregate] using h4
  · simpa [aggregate] using h3
  · cases hn : o.newRequestErr <;> cases hd : o.doErr <;> simp [makeRequest, hn, hd]

/-- Witness for C10 at a concrete erroring request outcome. -/
theorem latency_over_all_results_witness :
    (makeRequest ⟨none, some "dial tcp refused", 0, 0, 3⟩).Error.isSome = true ∧
    (makeRequest ⟨none, some "dial tcp refused", 0, 0, 3⟩).Latency = 0 :=
  ⟨rfl, (latency_over_all_results [] ⟨none, some "dial tcp refused", 0, 0, 3⟩).2.2 rfl⟩

theorem tdiv_billion_pos (rate : Int) (h0 : 0 < rate) (h1 : rate ≤ 1000000000) :
    0 < Int.tdiv 1000000000 rate := by
  obtain ⟨r, rfl⟩ := Int.eq_ofNat_of_zero_le h0.le
  rw [show Int.tdiv 1000000000 (r : Int) = Int.ofNat (1000000000 / r) from rfl]
  exact Int.ofNat_pos.mpr (Nat.div_pos (by omega) (by omega))

theorem tdiv_billion_eq_zero (rate : Int) (h1 : 1000000000 < rate) :
    Int.tdiv 1000000000 rate = 0 := by
  have h0 : (0 : Int) ≤ rate := by omega
  obtain ⟨r, rfl⟩ := Int.eq_ofNat_of_zero_le h0
  rw [show Int.tdiv 1000000000 (r : Int) = Int.ofNat (1000000000 / r) from rfl]
  rw [Nat.div_eq_of_lt (by omega)]
  rfl

/-- C5 counterexample: at count = 5, rate = 2·10^9 (a legal flag value) the
ticker period `time.Second / time.Duration(rate)` truncates to 0, so
`time.NewTicker` panics before the emitting goroutine starts: no event is
ever emitted and the channel never closes, against the claim's quantification
over every rate. -/
theorem jobGenerator_high_rate_panic : jobGenerator 5 2000000000 = none := rfl

/-- C5 amended: for every count ≥ 1, if rate ≤ 10^9 then `jobGenerator`
emits exactly `count` events on its output channel and then closes it — with
no ticker pacing when rate ≤ 0, and with every emission gated by a ticker of
period `time.Second / rate` (10^9 tdiv rate) nanoseconds when 0 < rate —
while for rate > 10^9 the computed ticker period truncates to 0 and
`time.NewTicker` panics before anything is emitted, so no events are
delivered and the channel never closes. -/
theorem jobGenerator_emits_count (count rate : Int) (hc : 1 ≤ count) :
    (rate ≤ 1000000000 →
      ∃ g, jobGenerator count rate = some g ∧
        (g.events.length : Int) = count ∧ g.closed = true ∧
        (rate ≤ 0 → g.ticker = none ∧ ∀ e ∈ g.events, e = false) ∧
        (0 < rate → g.ticker = some (Int.tdiv 1000000000 rate) ∧
          ∀ e ∈ g.events, e = true)) ∧
    (1000000000 < rate → jobGenerator count rate = none) := by
  constructor
  · intro hr
    by_cases hpos : 0 < rate
    · have hp := tdiv_billion_pos rate hpos hr
      have hple : ¬ Int.tdiv 1000000000 rate ≤ 0 := by omega
      have ht : newTicker rate = some (some (Int.tdiv 1000000000 rate)) := by
        simp [newTicker, hpos, hple]
      refine ⟨{ events := genLoop count true 0, closed := true
                ticker := some (Int.tdiv 1000000000 rate) }, ?_, ?_, rfl, ?_, ?_⟩
      · simp [jobGenerator, ht]
      · dsimp only
        rw [genLoop_eq_replicate, List.length_replicate]
        omega
      · intro h0
        omega
      · intro _
        refine ⟨rfl, ?_⟩
        intro e he
        dsimp only at he
        rw [genLoop_eq_replicate] at he
        exact List.eq_of_mem_replicate he
    · have ht : newTicker rate = some none := by simp [newTicker, hpos]
      refine ⟨{ events := genLoop count false 0, closed := true, ticker := none },
        ?_, ?_, rfl, ?_, ?_⟩
      · simp [jobGenerator, ht]
      · dsimp only
        rw [genLoop_eq_replicate, List.length_replicate]
        omega
      · intro _
        refine ⟨rfl, ?_⟩
        intro e he
        dsimp only at he
        rw [genLoop_eq_replicate] at he
        exact List.eq_of_mem_replicate he
      · intro h0
        exact absurd h0 hpos
  · intro hr
    have hpos : 0 < rate := by omega
    have hz := tdiv_billion_eq_zero rate hr
    have ht : newTicker rate = none := by simp [newTicker, hpos, hz]
    simp [jobGenerator, ht]

/-- Witness for C5: five events, rate 0, no pacing. -/
theorem jobGenerator_emits_count_witness :
    (1 : Int) ≤ 5 ∧ (0 : Int) ≤ 1000000000 ∧
    ∃ g, jobGenerator 5 0 = some g ∧ (g.events.length : Int) = 5 ∧
      g.closed = true ∧ g.ticker = none := by
  obtain ⟨g, hg, h1, h2, h3, _⟩ :=
    (jobGenerator_emits_count 5 0 (by decide)).1 (by decide)
  exact ⟨by decide, by decide, g, hg, h1, h2, (h3 (by decide)).1⟩

/-- C9 counterexample: at count = 0, rate = 2·10^9 the ticker period
truncates to 0 and `time.NewTicker` panics before the goroutine runs, so no
event is emitted but the channel is never closed either — against the
claim's quantification over every rate. -/
theorem jobGenerator_zero_count_high_rate_panic :
    jobGenerator 0 2000000000 = none := rfl

/-- C9 amended: for every count ≤ 0 and every rate ≤ 10^9, `jobGenerator`
emits zero events (the loop body never runs) and closes its output channel
immediately, so a consumer ranging over the channel terminates at once; for
rate > 10^9 the program instead panics in `time.NewTicker` before the
goroutine starts and the channel is never closed. -/
theorem jobGenerator_nonpositive_count (count rate : Int) (hc : count ≤ 0) :
    (rate ≤ 1000000000 →
      ∃ g, jobGenerator count rate = some g ∧ g.events = [] ∧ g.closed = true) ∧
    (1000000000 < rate → jobGenerator count rate = none) := by
  constructor
  · intro hr
    by_cases hpos : 0 < rate
    · have hp := tdiv_billion_pos rate hpos hr
      have hple : ¬ Int.tdiv 1000000000 rate ≤ 0 := by omega
      have ht : newTicker rate = some (some (Int.tdiv 1000000000 rate)) := by
        simp [newTicker, hpos, hple]
      refine ⟨{ events := genLoop count true 0, closed := true
                ticker := some (Int.tdiv 1000000000 rate) }, ?_, ?_, rfl⟩
      · simp [jobGenerator, ht]
      · dsimp only
        rw [genLoop_eq_replicate]
        have h0 : (count - 0).toNat = 0 := by omega
        rw [h0]
        rfl
    · have ht : newTicker rate = some none := by simp [newTicker, hpos]
      refine ⟨{ events := genLoop count false 0, closed := true, ticker := none },
        ?_, ?_, rfl⟩
      · simp [jobGenerator, ht]
      · dsimp only
        rw [genLoop_eq_replicate]
        have h0 : (count - 0).toNat = 0 := by omega
        rw [h0]
        rfl
  · intro hr
    have hpos : 0 < rate := by omega
    have hz := tdiv_billion_eq_zero rate hr
    have ht : newTicker rate = none := by simp [newTicker, hpos, hz]
    simp [jobGenerator, ht]

/-- Witness for C9 at count = -2, rate = 5. -/
theorem jobGenerator_nonpositive_count_witness :
    (-2 : Int) ≤ 0 ∧ (5 : Int) ≤ 1000000000 ∧
    ∃ g, jobGenerator (-2) 5 = some g ∧ g.events = [] ∧ g.closed = true := by
  obtain ⟨g, hg, h1, h2⟩ :=
    (jobGenerator_nonpositive_count (-2) 5 (by decide)).1 (by decide)
  exact ⟨by decide, by decide, g, hg, h1, h2⟩

/-- C6: for every non-empty ascending-sorted latency list and percentile `p`,
the reported percentile value is the list element at index
`floor(n * p / 100)` clamped to `n - 1`, and that index is in bounds. -/
theorem percentile_nearest_rank (l : List Int) (p : Nat) (hne : l ≠ [])
    (hs : l.Sorted (· ≤ ·)) :
    percentileValue l p = l.getD (nearestRankIdx l.length p) 0 ∧
    percentileIdx l.length p = nearestRankIdx l.length p ∧
    percentileIdx l.length p < l.length := by
  have hl : 0 < l.length := List.length_pos.mpr hne
  have key : percentileIdx l.length p = nearestRankIdx l.length p ∧
      percentileIdx l.length p < l.length := by
    simp only [percentileIdx, nearestRankIdx]
    generalize l.length * p / 100 = t
    split <;> omega
  exact ⟨by rw [percentileValue, key.1], key⟩

/-- Witness for C6: the spec's five sorted samples 10ms..50ms; P50 is the
element at index 2 (30ms) and P99 the element at index 4 (50ms). -/
theorem percentile_nearest_rank_witness :
    ([10000000, 20000000, 30000000, 40000000, 50000000] : List Int) ≠ [] ∧
    ([10000000, 20000000, 30000000, 40000000, 50000000] : List Int).Sorted (· ≤ ·) ∧
    nearestRankIdx 5 50 = 2 ∧
    percentileValue [10000000, 20000000, 30000000, 40000000, 50000000] 50 = 30000000 ∧
    nearestRankIdx 5 99 = 4 ∧
    percentileValue [10000000, 20000000, 30000000, 40000000, 50000000] 99 = 50000000 := by
  have h50 := percentile_nearest_rank
    [10000000, 20000000, 30000000, 40000000, 50000000] 50 (by decide) (by decide)
  have h99 := percentile_nearest_rank
    [10000000, 20000000, 30000000, 40000000, 50000000] 99 (by decide) (by decide)
  refine ⟨by decide, by decide, by decide, ?_, by decide, ?_⟩
  · rw [h50.1]; decide
  · rw [h99.1]; decide

end Blitz

namespace Pool

theorem execJob_id (j : Job) : (execJob j).JobID = j.ID := by
  cases hf : j.Func j.Content <;> simp [execJob, hf]

theorem jobIds_append (l1 l2 : List Job) :
    jobIds (l1 ++ l2) = jobIds l1 + jobIds l2 := by
  simp only [jobIds, List.map_append]
  exact (Multiset.coe_add _ _).symm

theorem resultIds_append (l1 l2 : List Result) :
    resultIds (l1 ++ l2) = resultIds l1 + resultIds l2 := by
  simp only [resultIds, List.map_append]
  exact (Multiset.coe_add _ _).symm

theorem jobIds_middle (pre post : List Job) (j : Job) :
    jobIds (pre ++ j :: post) = jobIds (pre ++ post) + jobIds [j] := by
  simp only [jobIds, List.map_append, List.map_cons, List.map_nil]
  rw [Multiset.coe_add]
  exact Multiset.coe_eq_coe.mpr (List.perm_middle.trans (List.perm_append_singleton _ _).symm)

theorem initState_inv : Inv initState := by
  refine ⟨rfl, ?_, ?_, ?_⟩ <;> simp [initState]

theorem step_inv {s s' : PoolState} (h : Step s s') (hi : Inv s) : Inv s' := by
  obtain ⟨h1, h2, h3, h4⟩ := hi
  cases h with
  | submit j hj =>
    refine ⟨?_, ?_, h3, h4⟩
    · dsimp only
      rw [jobIds_append, jobIds_append, h1, add_assoc]
    · intro hrc
      rw [(h2 hrc).1] at hj
      cases hj
  | dequeue j rest hc hq =>
    refine ⟨?_, ?_, h3, h4⟩
    · dsimp only
      rw [jobIds_append, h1, hq]
      rw [show (j :: rest) = [j] ++ rest from rfl, jobIds_append]
      abel
    · intro hrc
      rcases (h2 hrc).2.2 with hqe | hce
      · rw [hqe] at hq; cases hq
      · rw [hce] at hc; cases hc
  | complete pre post j hf =>
    refine ⟨?_, ?_, h3, h4⟩
    · dsimp only
      rw [resultIds_append, h1, hf, jobIds_middle]
      have hj1 : resultIds [execJob j] = jobIds [j] := by
        simp [resultIds, jobIds, execJob_id]
      rw [hj1]
      abel
    · intro hrc
      rw [(h2 hrc).2.1] at hf
      cases pre <;> simp at hf
  | cancel =>
    refine ⟨h1, ?_, h3, h4⟩
    intro hrc
    exact ⟨(h2 hrc).1, (h2 hrc).2.1, Or.inr rfl⟩
  | closeJobs hj =>
    exact ⟨h1, fun hrc => ⟨rfl, (h2 hrc).2.1, (h2 hrc).2.2⟩, h3, h4⟩
  | closeResults hj hf hq hr =>
    have h5 : s.closeCount = 0 := by
      by_contra hne
      have hone : s.closeCount = 1 := by omega
      rw [h3.mpr hone] at hr
      cases hr
    refine ⟨h1, fun _ => ⟨hj, hf, hq⟩, ?_, ?_⟩
    · dsimp only
      rw [h5]
      simp
    · dsimp only
      omega


theorem reachable_inv {s : PoolState} (h : Reachable s) : Inv s := by
  have h' : Relation.ReflTransGen Step initState s := h
  clear h
  induction h' with
  | refl => exact initState_inv
  | tail _ hbc ih => exact step_inv hbc ih

/-- C1: for every set of k Jobs submitted to a Pool whose cancellation
context is never cancelled, exactly k Results are delivered on the results
channel before it closes, the multiset of JobID values in those Results
equals the multiset of the submitted Job IDs, and no Result is ever emitted
for a Job that was not submitted. -/
theorem pool_results_complete (s : PoolState) (hr : Reachable s) :
    (∀ r ∈ s.emitted, r.JobID ∈ s.submitted.map Job.ID) ∧
    (s.cancelled = false → s.resultsClosed = true →
      resultIds s.emitted = jobIds s.submitted ∧
      s.emitted.length = s.submitted.length) := by
  obtain ⟨h1, h2, _, _⟩ := reachable_inv hr
  constructor
  · intro r hrm
    have hmem : r.JobID ∈ resultIds s.emitted := by
      simp only [resultIds, Multiset.mem_coe]
      exact List.mem_map_of_mem Result.JobID hrm
    have : r.JobID ∈ jobIds s.submitted := by
      rw [h1]
      exact Multiset.mem_add.mpr (Or.inl (Multiset.mem_add.mpr (Or.inl hmem)))
    simpa [jobIds, Multiset.mem_coe] using this
  · intro hcanc hclosed
    obtain ⟨_, hif, hqc⟩ := h2 hclosed
    have hque : s.queue = [] := by
      rcases hqc with h | h
      · exact h
      · rw [hcanc] at h; cases h
    have hids : resultIds s.emitted = jobIds s.submitted := by
      rw [h1, hif, hque]
      simp [jobIds]
    refine ⟨hids, ?_⟩
    have hcard := congrArg Multiset.card hids
    simpa [resultIds, jobIds] using hcard

/-- Witness helper: `drainedState` is the end of the concrete run that
submits `okJob`, dequeues and completes it, then shuts the pool down. -/
theorem drainedState_reachable : Reachable drainedState := by
  refine Relation.ReflTransGen.tail (Relation.ReflTransGen.tail
    (Relation.ReflTransGen.tail (Relation.ReflTransGen.tail
      (Relation.ReflTransGen.tail Relation.ReflTransGen.refl
        (Step.submit initState okJob rfl))
      (Step.dequeue _ okJob [] rfl rfl))
    (Step.complete _ [] [] okJob rfl))
    (Step.closeJobs _ rfl))
    (Step.closeResults _ rfl rfl (Or.inl rfl) rfl)

/-- Witness for C1 on the concrete drained run. -/
theorem pool_results_complete_witness :
    drainedState.cancelled = false ∧ drainedState.resultsClosed = true ∧
    resultIds drainedState.emitted = jobIds drainedState.submitted ∧
    drainedState.emitted.length = drainedState.submitted.length :=
  ⟨rfl, rfl,
    ((pool_results_complete drainedState drainedState_reachable).2 rfl rfl).1,
    ((pool_results_complete drainedState drainedState_reachable).2 rfl rfl).2⟩

/-- C2: after Shutdown has closed the results channel it is closed exactly
once and never reused: in every reachable state the close has run at most
once, it has run exactly once precisely when the channel is closed, and from
a state with a closed results channel no transition reopens the channel,
emits another Result, or closes it again. -/
theorem pool_results_closed_once (s : PoolState) (hr : Reachable s) :
    s.closeCount ≤ 1 ∧ (s.resultsClosed = true ↔ s.closeCount = 1) ∧
    (s.resultsClosed = true → ∀ s', Step s s' →
      s'.resultsClosed = true ∧ s'.emitted = s.emitted ∧
      s'.closeCount = s.closeCount) := by
  obtain ⟨_, h2, h3, h4⟩ := reachable_inv hr
  refine ⟨h4, h3, ?_⟩
  intro hc s' hstep
  obtain ⟨hjc, hif, hqc⟩ := h2 hc
  cases hstep with
  | submit j hj => rw [hjc] at hj; cases hj
  | dequeue j rest hcc hq =>
    rcases hqc with h | h
    · rw [h] at hq; cases hq
    · rw [h] at hcc; cases hcc
  | complete pre post j hf =>
    rw [hif] at hf
    cases pre <;> simp at hf
  | cancel => exact ⟨hc, rfl, rfl⟩
  | closeJobs hj => rw [hjc] at hj; cases hj
  | closeResults hj hf hq hrc => rw [hc] at hrc; cases hrc

/-- Witness for C2 on the concrete drained run. -/
theorem pool_results_closed_once_witness :
    drainedState.resultsClosed = true ∧
    drainedState.closeCount ≤ 1 ∧
    (drainedState.resultsClosed = true ↔ drainedState.closeCount = 1) :=
  ⟨rfl, (pool_results_closed_once drainedState drainedState_reachable).1,
    (pool_results_closed_once drainedState drainedState_reachable).2.1⟩

/-- C3: if the cancellation context is cancelled, it stays cancelled, no
worker ever pulls another Job (every Job queued at cancellation is still
queued in every later state, hence never processed), every Result emitted
after cancellation is the Result of a Job that was already dequeued
(in flight) at cancellation — so queued Jobs never produce a Result — and an
already-dequeued Job can always run to completion, cancellation
notwithstanding. -/
theorem pool_cancellation (s s' : PoolState) (hc : s.cancelled = true)
    (h : Reaches s s') :
    s'.cancelled = true ∧
    (∀ j ∈ s.queue, j ∈ s'.queue) ∧
    (∃ done : List Job, s'.emitted = s.emitted ++ done.map execJob ∧
      (s'.inFlight ++ done).Perm s.inFlight) ∧
    (∀ pre j post, s.inFlight = pre ++ j :: post →
      Step s { s with inFlight := pre ++ post,
                      emitted := s.emitted ++ [execJob j] }) := by
  have key : s'.cancelled = true ∧ (∀ j ∈ s.queue, j ∈ s'.queue) ∧
      ∃ done : List Job, s'.emitted = s.emitted ++ done.map execJob ∧
        (s'.inFlight ++ done).Perm s.inFlight := by
    have h' : Relation.ReflTransGen Step s s' := h
    clear h
    induction h' with
    | refl => exact ⟨hc, fun j hj => hj, [], by simp, by simp⟩
    | tail _ hbc ih =>
      obtain ⟨ihc, ihq, done, hd1, hd2⟩ := ih
      cases hbc with
      | submit j hj =>
        refine ⟨ihc, fun j' hj' => ?_, done, hd1, hd2⟩
        exact List.mem_append_left _ (ihq j' hj')
      | dequeue j rest hcc hq => rw [ihc] at hcc; cases hcc
      | complete pre post j hf =>
        refine ⟨ihc, ihq, done ++ [j], ?_, ?_⟩
        · dsimp only
          rw [hd1, List.map_append, List.map_cons, List.map_nil, List.append_assoc]
        · dsimp only
          have e1 : ((pre ++ j :: post) ++ done).Perm (j :: ((pre ++ post) ++ done)) :=
            List.perm_middle.append_right done
          have e2 : ((pre ++ post) ++ (done ++ [j])).Perm (j :: ((pre ++ post) ++ done)) := by
            rw [← List.append_assoc]
            exact List.perm_append_singleton _ _
          rw [hf] at hd2
          exact e2.trans (e1.symm.trans hd2)
      | cancel => exact ⟨rfl, ihq, done, hd1, hd2⟩
      | closeJobs hj => exact ⟨ihc, ihq, done, hd1, hd2⟩
      | closeResults hj hf hq hrc => exact ⟨ihc, ihq, done, hd1, hd2⟩
  exact ⟨key.1, key.2.1, key.2.2, fun pre j post hf => Step.complete s pre post j hf⟩

/-- Witness for C3: from `cancelledState` (cancelled, `okJob` queued, job 2
in flight) the in-flight job completes in one step; `okJob` is still queued
afterwards and the only new Result is job 2's. -/
theorem pool_cancellation_witness :
    cancelledState.cancelled = true ∧
    Reaches cancelledState
      { cancelledState with
        inFlight := ([] : List Job)
        emitted := [execJob { ID := 2, Content := [], Func := fun b => Except.ok b }] } ∧
    (okJob ∈ cancelledState.queue →
      okJob ∈ ({ cancelledState with
                 inFlight := ([] : List Job)
                 emitted := [execJob { ID := 2, Content := [], Func := fun b => Except.ok b }] }
                : PoolState).queue) := by
  have hstep : Reaches cancelledState
      { cancelledState with
        inFlight := ([] : List Job)
        emitted := [execJob { ID := 2, Content := [], Func := fun b => Except.ok b }] } :=
    Relation.ReflTransGen.single
      (Step.complete cancelledState [] []
        { ID := 2, Content := [], Func := fun b => Except.ok b } rfl)
  exact ⟨rfl, hstep, fun hm =>
    (pool_cancellation cancelledState _ rfl hstep).2.1 okJob hm⟩

/-- C4: for every Job, the Result emitted for it has a non-nil Error field
iff the Job's Func returned an error, and such a failure never stops the
pool: for any two Jobs (the first possibly failing) there is a complete
never-cancelled run in which both are submitted and both Results — each
wrapped by the same `execJob` — are emitted before the results channel
closes, the sibling keeping its own (error-free, when its Func succeeds)
Result. -/
theorem pool_error_isolation (j1 j2 : Job) :
    (∀ j : Job, (execJob j).Error ≠ none ↔ ∃ e, j.Func j.Content = Except.error e) ∧
    (∀ j : Job, (execJob j).JobID = j.ID) ∧
    ∃ s : PoolState, Reachable s ∧ s.resultsClosed = true ∧ s.cancelled = false ∧
      s.submitted = [j1, j2] ∧ s.emitted = [execJob j1, execJob j2] := by
  refine ⟨?_, execJob_id, ?_⟩
  · intro j
    cases hf : j.Func j.Content with
    | ok out => simp [execJob, hf]
    | error e => simp [execJob, hf]
  · refine ⟨{ queue := [], inFlight := [], emitted := [execJob j1, execJob j2]
              submitted := [j1, j2], jobsClosed := true, resultsClosed := true
              cancelled := false, closeCount := 1 }, ?_, rfl, rfl, rfl, rfl⟩
    exact Relation.ReflTransGen.tail (Relation.ReflTransGen.tail
      (Relation.ReflTransGen.tail (Relation.ReflTransGen.tail
        (Relation.ReflTransGen.tail (Relation.ReflTransGen.tail
          (Relation.ReflTransGen.tail (Relation.ReflTransGen.tail
            Relation.ReflTransGen.refl
            (Step.submit initState j1 rfl))
            (Step.submit _ j2 rfl))
          (Step.dequeue _ j1 [j2] rfl rfl))
          (Step.complete _ [] [] j1 rfl))
        (Step.dequeue _ j2 [] rfl rfl))
        (Step.complete _ [] [] j2 rfl))
      (Step.closeJobs _ rfl))
      (Step.closeResults _ rfl rfl (Or.inl rfl) rfl)

end Pool
